import Mathlib

/-!
Verification of the document-processing and quiz pipeline of an AI-tutor
backend (FastAPI + SQLAlchemy).  Python strings are embedded as `List Char`,
JSON values as an inductive type with an executable parser, the IEEE-754
double arithmetic used by the quiz scorer as exactly-rounded rational
arithmetic on a significand/exponent pair, and the database as explicit
record states; each committed transaction of the background pipeline becomes
one element of a trace.  Sources modelled: `routers/documents.py`,
`routers/quizzes.py`, `models/document.py`, `models/quiz.py`,
`utils/file_handler.py`, `config.py`.
-/

set_option linter.unusedVariables false

/-- Python strings are modelled as lists of characters. -/
abbrev Str := List Char

/-- The characters stripped by Python's `str.strip()` (ASCII whitespace). -/
def isPyWs (c : Char) : Bool :=
  c = ' ' || c = '\t' || c = '\n' || c = '\r' || c = '\x0b' || c = '\x0c'

/-- Python `s.strip()`: remove leading and trailing whitespace. -/
def pyStrip (s : Str) : Str :=
  ((s.dropWhile isPyWs).reverse.dropWhile isPyWs).reverse

/-- Worker for `pyReplace`; the fuel bounds the scan by the string length. -/
def pyReplaceAux (old new : Str) : Nat → Str → Str
  | 0, s => s
  | _ + 1, [] => []
  | fuel + 1, c :: rest =>
    if old.isPrefixOf (c :: rest) then
      new ++ pyReplaceAux old new fuel ((c :: rest).drop old.length)
    else
      c :: pyReplaceAux old new fuel rest

/-- Python `s.replace(old, new)`: replace every occurrence, left to right
(non-empty `old` in all uses here). -/
def pyReplace (old new s : Str) : Str :=
  pyReplaceAux old new s.length s

/-- Worker for `pySplit`. -/
def pySplitAux (sep : Str) : Nat → Str → Str → List Str
  | 0, s, cur => [cur.reverse ++ s]
  | _ + 1, [], cur => [cur.reverse]
  | fuel + 1, c :: rest, cur =>
    if sep.isPrefixOf (c :: rest) then
      cur.reverse :: pySplitAux sep fuel ((c :: rest).drop sep.length) []
    else
      pySplitAux sep fuel rest (c :: cur)

/-- Python `s.split(sep)` for a non-empty separator: split at every
occurrence, left to right. -/
def pySplit (sep s : Str) : List Str :=
  pySplitAux sep s.length s []

/-- Worker for `natStr`. -/
def natStrAux : Nat → Nat → Str
  | 0, _ => []
  | fuel + 1, n =>
    if n < 10 then [Nat.digitChar n]
    else natStrAux fuel (n / 10) ++ [Nat.digitChar (n % 10)]

/-- Python `str(n)` for a non-negative integer. -/
def natStr (n : Nat) : Str := natStrAux (n + 1) n

/-- JSON values as returned by Python's `json.loads`.  JSON numbers are
restricted to integers: no value parsed or produced by the modelled code
paths needs fractions or exponents. -/
inductive Json where
  | jnull
  | jbool (b : Bool)
  | jint (n : Int)
  | jstr (s : Str)
  | jarr (elems : List Json)
  | jobj (fields : List (Str × Json))

/-- JSON inter-token whitespace (RFC 8259, as accepted by `json.loads`). -/
def isJsonWs (c : Char) : Bool :=
  c = ' ' || c = '\t' || c = '\n' || c = '\r'

/-- Skip JSON whitespace. -/
def skipWs (s : Str) : Str := s.dropWhile isJsonWs

/-- Single-character JSON string escapes. -/
def escChar : Char → Option Char
  | '"' => some '"'
  | '\\' => some '\\'
  | '/' => some '/'
  | 'b' => some '\x08'
  | 'f' => some '\x0c'
  | 'n' => some '\n'
  | 'r' => some '\r'
  | 't' => some '\t'
  | _ => none

/-- Value of a hexadecimal digit. -/
def hexVal (c : Char) : Option Nat :=
  if '0' ≤ c ∧ c ≤ '9' then some (c.toNat - 48)
  else if 'a' ≤ c ∧ c ≤ 'f' then some (c.toNat - 87)
  else if 'A' ≤ c ∧ c ≤ 'F' then some (c.toNat - 55)
  else none

/-- Parse the body of a JSON string (after the opening quote); returns the
decoded characters and the input after the closing quote.  Unescaped control
characters are rejected, as by `json.loads` in strict mode. -/
def parseStrBody : Str → Option (Str × Str)
  | [] => none
  | '"' :: rest => some ([], rest)
  | '\\' :: e :: rest =>
    (match escChar e with
     | some c => (parseStrBody rest).map fun p => (c :: p.1, p.2)
     | none =>
       if e = 'u' then
         match rest with
         | h1 :: h2 :: h3 :: h4 :: rest3 => do
           let v1 ← hexVal h1
           let v2 ← hexVal h2
           let v3 ← hexVal h3
           let v4 ← hexVal h4
           let p ← parseStrBody rest3
           pure (Char.ofNat (v1 * 4096 + v2 * 256 + v3 * 16 + v4) :: p.1, p.2)
         | _ => none
       else none)
  | c :: rest =>
    if c.toNat < 32 then none
    else (parseStrBody rest).map fun p => (c :: p.1, p.2)

/-- Decimal digits to a natural number. -/
def digitsToNat (ds : Str) : Nat :=
  ds.foldl (fun a c => a * 10 + (c.toNat - 48)) 0

/-- Parse a JSON integer literal (fractions and exponents are not modelled;
no input relevant to the claims contains them). -/
def parseNumber (s : Str) : Option (Json × Str) :=
  let neg := match s with | '-' :: _ => true | _ => false
  let s1 := if neg then s.drop 1 else s
  let ds := s1.takeWhile Char.isDigit
  let rest := s1.dropWhile Char.isDigit
  if ds.isEmpty then none
  else if 1 < ds.length ∧ ds.headD '0' = '0' then none
  else
    match rest with
    | '.' :: _ => none
    | 'e' :: _ => none
    | 'E' :: _ => none
    | _ =>
      some (Json.jint (if neg then -(digitsToNat ds : Int) else (digitsToNat ds : Int)), rest)

mutual

/-- Parse one JSON value; the fuel bounds recursion depth and element
counts. -/
def parseVal : Nat → Str → Option (Json × Str)
  | 0, _ => none
  | fuel + 1, s =>
    match skipWs s with
    | [] => none
    | '"' :: rest => (parseStrBody rest).map fun p => (Json.jstr p.1, p.2)
    | '[' :: rest =>
      (match skipWs rest with
       | ']' :: r => some (Json.jarr [], r)
       | _ => (parseArrItems fuel rest).map fun p => (Json.jarr p.1, p.2))
    | '{' :: rest =>
      (match skipWs rest with
       | '}' :: r => some (Json.jobj [], r)
       | _ => (parseObjItems fuel rest).map fun p => (Json.jobj p.1, p.2))
    | 't' :: rest =>
      if ['r', 'u', 'e'].isPrefixOf rest then some (Json.jbool true, rest.drop 3) else none
    | 'f' :: rest =>
      if ['a', 'l', 's', 'e'].isPrefixOf rest then some (Json.jbool false, rest.drop 4) else none
    | 'n' :: rest =>
      if ['u', 'l', 'l'].isPrefixOf rest then some (Json.jnull, rest.drop 3) else none
    | s' => parseNumber s'

/-- Parse the items of a non-empty JSON array (after the opening bracket). -/
def parseArrItems : Nat → Str → Option (List Json × Str)
  | 0, _ => none
  | fuel + 1, s => do
    let (v, r) ← parseVal fuel s
    match skipWs r with
    | ',' :: r2 => (parseArrItems fuel r2).map fun p => (v :: p.1, p.2)
    | ']' :: r2 => some ([v], r2)
    | _ => none

/-- Parse the members of a non-empty JSON object (after the opening brace). -/
def parseObjItems : Nat → Str → Option (List (Str × Json) × Str)
  | 0, _ => none
  | fuel + 1, s =>
    match skipWs s with
    | '"' :: rest => do
      let (k, r) ← parseStrBody rest
      match skipWs r with
      | ':' :: r2 => do
        let (v, r3) ← parseVal fuel r2
        match skipWs r3 with
        | ',' :: r4 => (parseObjItems fuel r4).map fun p => ((k, v) :: p.1, p.2)
        | '}' :: r4 => some ([(k, v)], r4)
        | _ => none
      | _ => none
    | _ => none

end

/-- Python `json.loads`: parse one JSON document, requiring the whole input
to be consumed (up to trailing whitespace). -/
def jsonParse (s : Str) : Option Json :=
  match parseVal (s.length + 2) s with
  | some (v, r) => if (skipWs r).isEmpty then some v else none
  | none => none

/-- A non-negative IEEE-754 binary64 value `m * 2 ^ e`; non-zero values are
kept normalized with `2^52 ≤ m < 2^53`.  The scorer only produces values far
inside the normal range, so overflow and subnormals need no representation. -/
structure F64 where
  m : Nat
  e : Int
deriving DecidableEq, Repr

/-- Round `n / d` to the nearest integer, ties to even (`0 < d`). -/
def rndHalfEven (n d : Nat) : Nat :=
  let q := n / d
  let r := n % d
  if d < 2 * r then q + 1
  else if 2 * r < d then q
  else if q % 2 = 1 then q + 1
  else q

/-- Double the denominator until `n < d * 2^53`, bumping the exponent;
returns the final denominator and exponent. -/
def scaleDown : Nat → Nat → Nat → Int → Nat × Int
  | 0, _, d, e => (d, e)
  | fuel + 1, n, d, e =>
    if n < d * 2 ^ 53 then (d, e) else scaleDown fuel n (2 * d) (e + 1)

/-- Double the numerator until `d * 2^52 ≤ n`, lowering the exponent;
returns the final numerator and exponent. -/
def scaleUp (d : Nat) : Nat → Nat → Int → Nat × Int
  | 0, n, e => (n, e)
  | fuel + 1, n, e =>
    if d * 2 ^ 52 ≤ n then (n, e) else scaleUp d fuel (2 * n) (e - 1)

/-- Round `(n / d) * 2 ^ e` (with `0 < n`, `0 < d`) to the nearest
representable binary64 value, ties to even. -/
def normPos (n d : Nat) (e : Int) : F64 :=
  let p := scaleDown n n d e
  let q := scaleUp p.1 (p.1 + 60) n p.2
  let m := rndHalfEven q.1 p.1
  if m = 2 ^ 53 then ⟨2 ^ 52, q.2 + 1⟩ else ⟨m, q.2⟩

/-- The binary64 value nearest to `n / d` (round to nearest, ties to even,
`0 < d`): Python's true division `n / d` on non-negative ints. -/
def floatOfRat (n d : Nat) : F64 :=
  if n = 0 then ⟨0, 0⟩ else normPos n d 0

/-- IEEE multiplication `x * 100.0` (100 is exactly representable, so this
is correctly-rounded `100 * m * 2 ^ e`). -/
def pyMul100 (x : F64) : F64 :=
  if x.m = 0 then ⟨0, 0⟩ else normPos (100 * x.m) 1 x.e

/-- Python `int(x)` for a non-negative double: truncate toward zero. -/
def pyTrunc (x : F64) : Nat :=
  match x.e with
  | Int.ofNat k => x.m * 2 ^ k
  | Int.negSucc k => x.m / 2 ^ (k + 1)

/-- `int((c / t) * 100)` exactly as Python evaluates it on non-negative
ints `c`, `t` with `0 < t`: binary64 division, multiplication by `100.0`,
truncation. -/
def pyFloatPct (c t : Nat) : Nat := pyTrunc (pyMul100 (floatOfRat c t))

/-- `models.document.ProcessingStatus`; the `COMPLETED` member carries the
string value `"processed"` and is named accordingly here. -/
inductive PStatus where
  | pending
  | processing
  | processed
  | failed
deriving DecidableEq, Repr

/-- `models.quiz.DifficultyLevel`. -/
inductive DifficultyLevel where
  | easy
  | medium
  | hard
deriving DecidableEq, Repr

/-- A row of `documents` (`models.document.Document`); `processed_at` is
modelled as a presence flag. -/
structure Document where
  id : Nat
  user_id : Nat
  filename : Str
  original_name : Str
  file_path : Str
  file_size : Nat
  mime_type : Str
  page_count : Option Nat := none
  content : Option Str := none
  summary : Option Str := none
  key_topics : Option Json := none
  tags : Option Json := none
  processing_status : PStatus := .pending
  processed_at : Bool := false

/-- A row of `questions` (`models.quiz.Question`); `question_type` is
multiple-choice on every modelled path and is omitted, and `id` is assigned
by the database. -/
structure Question where
  id : Nat
  question_text : Str := []
  options : Json := Json.jobj []
  correct_answer : Str := []
  explanation : Str := []
  order_index : Nat := 0

/-- A row of `quizzes` (`models.quiz.Quiz`) with its owned `questions`
collection. -/
structure Quiz where
  id : Nat
  document_id : Nat
  title : Str := []
  description : Str := []
  difficulty : DifficultyLevel := .medium
  estimated_duration : Nat := 0
  questions : List Question := []

/-- `routers.quizzes.QuizAnswerRequest`: one submitted answer, including the
client-chosen `isCorrect` flag. -/
structure QuizAnswerRequest where
  questionId : Str
  answer : Str
  isCorrect : Bool

/-- A row of `quiz_submissions` (`models.quiz.QuizSubmission`); the stored
`answers` JSON keeps the full request payload. -/
structure QuizSubmission where
  quiz_id : Nat
  user_id : Nat
  answers : List QuizAnswerRequest
  score : Nat

/-- The tables touched by the modelled endpoints. -/
structure Store where
  documents : List Document := []
  quizzes : List Quiz := []
  submissions : List QuizSubmission := []

/-- An `HTTPException`: status code and human-readable detail. -/
structure HErr where
  status : Nat
  detail : Str

/-- Lookup in a Python dict built by comprehension from an association
list: on duplicate keys the last binding wins. -/
def pyDictGet (l : List (Str × Str)) (k : Str) : Option Str :=
  (l.reverse.find? (fun p => p.1 == k)).map (·.2)

/-- `QuizService.calculate_score` (`routers/quizzes.py`): early `0` when the
quiz has no questions or no answers were submitted, else
`int((correct_count / total_questions) * 100)` in binary64 arithmetic,
counting a submitted answer as correct when its `questionId` is a key of
the correct-answer dict and the answer string equals the stored one. -/
def calculate_score (quiz : Quiz) (answers : List QuizAnswerRequest) : Nat :=
  if quiz.questions.isEmpty || answers.isEmpty then 0
  else
    let correct_answers := quiz.questions.map (fun q => (natStr q.id, q.correct_answer))
    let correct_count := answers.countP (fun a =>
      match pyDictGet correct_answers a.questionId with
      | some ca => a.answer == ca
      | none => false)
    pyFloatPct correct_count quiz.questions.length

/-- The `Quiz`-`Document` join used by the quiz endpoints: the quiz with
this id whose owning document belongs to the user. -/
def findQuiz (st : Store) (uid qid : Nat) : Option Quiz :=
  st.quizzes.find? (fun qz =>
    qz.id == qid && st.documents.any (fun d => d.id == qz.document_id && d.user_id == uid))

/-- `submit_quiz` (`routers/quizzes.py POST /quizzes/(id)/submit`): look the
quiz up (404 otherwise), compute the score server-side, persist one
submission row holding the request payload and that score. -/
def submit_quiz (st : Store) (uid qid : Nat) (answers : List QuizAnswerRequest) :
    Store × Except HErr QuizSubmission :=
  match findQuiz st uid qid with
  | none => (st, .error ⟨404, "Quiz not found".data⟩)
  | some quiz =>
    let score := calculate_score quiz answers
    let submission : QuizSubmission := ⟨qid, uid, answers, score⟩
    ({st with submissions := st.submissions ++ [submission]}, .ok submission)

/-- Python `needle in hay` for strings: substring containment. -/
def strContains (needle : Str) : Str → Bool
  | [] => needle.isEmpty
  | c :: rest => needle.isPrefixOf (c :: rest) || strContains needle rest

/-- `re.search(r'\[(.*?)\]', s, re.DOTALL)`: the lazy match starts at the
first `[` that is followed by some `]`; group 1 is the text strictly
between that `[` and the first such `]`. -/
def regexBracketLazy (s : Str) : Option Str :=
  match s.dropWhile (fun c => c ≠ '[') with
  | [] => none
  | _ :: u => if u.any (fun c => c = ']') then some (u.takeWhile (fun c => c ≠ ']')) else none

/-- `re.search(r'\[.*\]', s, re.DOTALL)`: greedy, so from the first `[` to
the last `]` after it, both included, if any. -/
def regexBracketGreedy (s : Str) : Option Str :=
  match s.dropWhile (fun c => c ≠ '[') with
  | [] => none
  | c :: u =>
    if u.any (fun c => c = ']') then
      some (c :: (u.reverse.dropWhile (fun c => c ≠ ']')).reverse)
    else none

/-- The summary section text: everything before the first `KEY_TOPICS:`
marker, with every `SUMMARY:` marker removed, stripped
(`parts[0].replace("SUMMARY:", "").strip()`). -/
def summarySection (content : Str) : Str :=
  pyStrip (pyReplace "SUMMARY:".data [] ((pySplit "KEY_TOPICS:".data content).headD []))

/-- The stripped text after the first `KEY_TOPICS:` marker
(`parts[1].strip()`). -/
def topicsSection (content : Str) : Str :=
  pyStrip ((pySplit "KEY_TOPICS:".data content).getD 1 [])

/-- `DocumentService.generate_summary_and_topics` (`routers/documents.py`),
from the model response (or a transport failure, `Except.error`) to the
`(summary, key_topics)` pair.  `key_topics` starts as the empty list and is
only replaced when the bracket extraction parses; a `json.loads` failure is
caught and falls back to the whole stripped response as the summary. -/
def generate_summary_and_topics (api : Except Unit Str) : Str × Json :=
  match api with
  | .error _ => ("Summary generation failed".data, Json.jarr [])
  | .ok content =>
    if strContains "SUMMARY:".data content && strContains "KEY_TOPICS:".data content then
      let summary := summarySection content
      match regexBracketLazy (topicsSection content) with
      | some inner =>
        (match jsonParse ('[' :: inner ++ [']']) with
         | some topics => (summary, topics)
         | none => (pyStrip content, Json.jarr []))
      | none => (summary, Json.jarr [])
    else (pyStrip content, Json.jarr [])

/-- Python `k in q` for a string `k`: key membership for dicts, substring
containment for strings, element equality for lists; `none` is the
`TypeError` raised for other types. -/
def pyContains (q : Json) (k : Str) : Option Bool :=
  match q with
  | .jobj fs => some (fs.any (fun f => f.1 == k))
  | .jstr s => some (strContains k s)
  | .jarr xs => some (xs.any (fun x => match x with | .jstr s => s == k | _ => false))
  | _ => none

/-- `all(key in q for key in ["question", "options", "answer"])`; `none`
models a `TypeError` escaping to the enclosing handler. -/
def hasRequired (q : Json) : Option Bool := do
  let b1 ← pyContains q "question".data
  let b2 ← pyContains q "options".data
  let b3 ← pyContains q "answer".data
  pure (b1 && b2 && b3)

/-- `for q in questions` over a `json.loads` result: list elements, dict
keys, or the characters of a string; `none` is the `TypeError` raised for a
non-iterable value. -/
def pyIter : Json → Option (List Json)
  | .jarr xs => some xs
  | .jobj fs => some (fs.map (fun f => Json.jstr f.1))
  | .jstr s => some (s.map (fun c => Json.jstr [c]))
  | _ => none

/-- The validation loop of `_generate_questions_ai`: keep the elements that
have all required fields; `none` when a `TypeError` aborts the batch. -/
def validLoop : List Json → Option (List Json)
  | [] => some []
  | q :: rest =>
    match hasRequired q with
    | none => none
    | some b => (validLoop rest).map (fun vs => if b then q :: vs else vs)

/-- The fence cleanup of `_generate_questions_ai`: `response.strip()`, then
`.replace('```json', '').replace('```', '').strip()`. -/
def cleanQuizOutput (resp : Str) : Str :=
  pyStrip (pyReplace "```".data [] (pyReplace "```json".data [] (pyStrip resp)))

/-- `QuizService._generate_questions_ai` (`routers/quizzes.py`), from the
model response (or transport failure) to the validated question records:
fence cleanup, one direct `json.loads` — a parse failure returns the empty
list, there is no regex retry on this path — then per-element
required-field filtering and truncation to the requested count; a
`TypeError` anywhere is swallowed by the outer handler, which returns the
empty list. -/
def generate_questions_ai (count : Nat) (api : Except Unit Str) : List Json :=
  match api with
  | .error _ => []
  | .ok resp =>
    match jsonParse (cleanQuizOutput resp) with
    | none => []
    | some j =>
      match pyIter j with
      | none => []
      | some elems =>
        match validLoop elems with
        | none => []
        | some valid => valid.take count

/-- `re.sub(r'^```json\s*', '', s)`: strip a leading fence marker and the
whitespace after it. -/
def stripFenceHead (s : Str) : Str :=
  if "```json".data.isPrefixOf s then (s.drop 7).dropWhile isPyWs else s

/-- `re.sub(r'\s*```$', '', s)`: strip a trailing fence marker and the
whitespace before it. -/
def stripFenceTail (s : Str) : Str :=
  if "```".data.reverse.isPrefixOf s.reverse then
    ((s.reverse.drop 3).dropWhile isPyWs).reverse
  else s

/-- `DocumentService.generate_quiz_questions` (`routers/documents.py`):
fence stripping, direct `json.loads`, then a greedy `\[.*\]` regex retry;
the raw parsed value is returned with no field validation and no
truncation, and total failure yields the empty list. -/
def generate_quiz_questions (api : Except Unit Str) : Json :=
  match api with
  | .error _ => Json.jarr []
  | .ok resp =>
    let raw := stripFenceTail (stripFenceHead (pyStrip resp))
    match jsonParse raw with
    | some j => j
    | none =>
      match regexBracketGreedy raw with
      | some sub =>
        (match jsonParse sub with
         | some j => j
         | none => Json.jarr [])
      | none => Json.jarr []

/-- The page texts a `PdfReader` would deliver, or a read/parse error. -/
abbrev PdfResult := Except Unit (List Str)

/-- The page-joining loop of `extract_pdf_text`:
`text += page.extract_text() + "\n"`. -/
def joinPages : List Str → Str
  | [] => []
  | p :: ps => p ++ '\n' :: joinPages ps

/-- `DocumentService.extract_pdf_text` (`routers/documents.py`): every
page's text followed by a newline, then stripped; any exception is caught
and yields the empty string. -/
def extract_pdf_text (pdf : PdfResult) : Str :=
  match pdf with
  | .error _ => []
  | .ok pages => pyStrip (joinPages pages)

/-- `DocumentService.get_pdf_page_count` (`routers/documents.py`): the
number of pages; any exception is caught and yields `0`. -/
def get_pdf_page_count (pdf : PdfResult) : Nat :=
  match pdf with
  | .error _ => 0
  | .ok pages => pages.length

/-- The outcomes of the I/O performed by one processing run: the PDF read
and the two model calls. -/
structure PipelineEnv where
  pdf : PdfResult
  summaryApi : Except Unit Str
  quizApi : Except Unit Str

/-- Whether the quiz-persistence loop of `process_document` finishes without
an exception.  `models.quiz.Quiz` has no `question`/`options`/
`correct_answer`/`explanation` columns (those moved to `Question` in the
migrated schema), so `Quiz(question=..., ...)` raises `TypeError` for every
element; the loop therefore completes only when there is nothing to
iterate, and `len(...)`/iteration of a non-sized value raises as well. -/
def quizRowsOk (qj : Json) : Bool :=
  match pyIter qj with
  | some [] => true
  | _ => false

/-- `DocumentService.process_document` (`routers/documents.py`) as the list
of committed document states, in commit order: the entry commit to
`processing`; the commit of `content`/`page_count` after a non-empty
extraction; then either the success commit (summary, topics, `processed`,
timestamp) or, after any exception, rollback, re-fetch of the committed row
and a `failed` commit.  A missing document commits nothing. -/
def process_document (env : PipelineEnv) (d0 : Option Document) : List Document :=
  match d0 with
  | none => []
  | some d =>
    let d1 := {d with processing_status := .processing}
    let text := extract_pdf_text env.pdf
    if text.isEmpty then
      [d1, {d1 with processing_status := .failed}]
    else
      let d2 := {d1 with content := some text, page_count := some (get_pdf_page_count env.pdf)}
      let s := generate_summary_and_topics env.summaryApi
      let qj := generate_quiz_questions env.quizApi
      if quizRowsOk qj then
        [d1, d2,
         {d2 with summary := some s.1, key_topics := some s.2,
                  processing_status := .processed, processed_at := true}]
      else
        [d1, d2, {d2 with processing_status := .failed}]

/-- The status values a reader can observe around one run: the initial
status followed by every committed status. -/
def statusTrace (env : PipelineEnv) (d : Document) : List PStatus :=
  d.processing_status :: (process_document env (some d)).map (·.processing_status)

/-- A step the specified state machine allows: staying put (a commit with
no status change), `pending → processing`, or `processing` to a terminal
state. -/
def allowedStep (a b : PStatus) : Bool :=
  a == b || (a == .pending && b == .processing) ||
    (a == .processing && (b == .processed || b == .failed))

/-- Every adjacent pair of the trace is an allowed step. -/
def chainOk : List PStatus → Bool
  | [] => true
  | [_] => true
  | a :: b :: r => allowedStep a b && chainOk (b :: r)

/-- The uploaded file as FastAPI hands it to the endpoint. -/
structure UploadFile where
  filename : Str
  content_type : Str
  size : Nat

/-- `config.settings.MAX_FILE_SIZE` (10 MB). -/
def MAX_FILE_SIZE : Nat := 10 * 1024 * 1024

/-- `config.settings.ALLOWED_FILE_TYPES`. -/
def ALLOWED_FILE_TYPES : List Str := ["pdf".data]

/-- `utils.file_handler.validate_file`: 413 for a file larger than
`MAX_FILE_SIZE`, 400 for a disallowed filename extension.  No route in the
repository calls it. -/
def validate_file (f : UploadFile) : Except HErr Bool :=
  if MAX_FILE_SIZE < f.size then
    .error ⟨413, "File too large. Maximum size: 10485760 bytes".data⟩
  else
    let ext := ((pySplit ['.'] f.filename).getLastD []).map Char.toLower
    if ALLOWED_FILE_TYPES.any (fun t => t == ext) then .ok true
    else .error ⟨400, "File type not allowed".data⟩

/-- `upload_document` (`routers/documents.py POST /upload`): reject a
non-PDF content type with 400 before anything is stored; otherwise save the
file, insert the `Document` row in `pending` state and schedule background
processing.  `validate_file` is never invoked, so no size check happens on
this path.  File-system naming is I/O and is represented by keeping the
original name; the row id is the next autoincrement value. -/
def upload_document (st : Store) (uid : Nat) (f : UploadFile) :
    Store × Except HErr Document :=
  if f.content_type ≠ "application/pdf".data then
    (st, .error ⟨400, "Only PDF files are supported".data⟩)
  else
    let doc : Document :=
      { id := st.documents.length + 1, user_id := uid, filename := f.filename,
        original_name := f.filename, file_path := f.filename, file_size := f.size,
        mime_type := f.content_type, processing_status := .pending }
    ({st with documents := st.documents ++ [doc]}, .ok doc)

/-- The strings `DifficultyLevel(difficulty)` accepts; anything else raises
`ValueError`. -/
def parseDifficulty (s : Str) : Option DifficultyLevel :=
  if s == "easy".data then some .easy
  else if s == "medium".data then some .medium
  else if s == "hard".data then some .hard
  else none

/-- Dict lookup on parsed JSON object fields, last binding winning. -/
def pyDictGetJ (fs : List (Str × Json)) (k : Str) : Option Json :=
  (fs.reverse.find? (fun f => f.1 == k)).map (·.2)

/-- One `Question` record as `generate_quiz_from_document` builds it from a
generated element via `q_data.get(...)`; string defaults stand in for the
non-string model output the text columns could not store anyway. -/
def mkQuestion (i : Nat) (fs : List (Str × Json)) : Question :=
  { id := 0,
    question_text := match pyDictGetJ fs "question".data with | some (.jstr s) => s | _ => [],
    options := (pyDictGetJ fs "options".data).getD (Json.jobj []),
    correct_answer := match pyDictGetJ fs "answer".data with | some (.jstr s) => s | _ => [],
    explanation := match pyDictGetJ fs "explanation".data with | some (.jstr s) => s | _ => [],
    order_index := i }

/-- The question-building loop of `generate_quiz_from_document`; `none` is
the exception a non-dict element raises at `q_data.get`, caught and turned
into a 500 by the enclosing handler. -/
def buildQuestions : Nat → List Json → Option (List Question)
  | _, [] => some []
  | i, q :: rest =>
    match q with
    | .jobj fs => (buildQuestions (i + 1) rest).map (fun qs => mkQuestion i fs :: qs)
    | _ => none

/-- `QuizService.generate_quiz_from_document` (`routers/quizzes.py`):
400 when the document has no content; 500 when the difficulty label is
invalid, when the generator returns no questions, or when question building
raises; otherwise the new quiz with its question records. -/
def generate_quiz_from_document (doc : Document) (difficulty : Str)
    (question_count : Nat) (api : Except Unit Str) (qid : Nat) : Except HErr Quiz :=
  if (doc.content.getD []).isEmpty then
    .error ⟨400, "Document content not available".data⟩
  else
    match parseDifficulty difficulty with
    | none => .error ⟨500, "Quiz generation failed".data⟩
    | some diff =>
      let questions_data := generate_questions_ai question_count api
      if questions_data.isEmpty then
        .error ⟨500, "Failed to generate quiz questions".data⟩
      else
        match buildQuestions 0 questions_data with
        | none => .error ⟨500, "Quiz generation failed".data⟩
        | some qs =>
          .ok { id := qid, document_id := doc.id,
                title := "Quiz: ".data ++ doc.filename.take 50 ++
                  (if 50 < doc.filename.length then "...".data else []),
                description := "Auto-generated quiz from ".data ++ doc.filename,
                difficulty := diff,
                estimated_duration := max 5 (question_count * 2),
                questions := qs }

/-- `generate_quiz` (`routers/quizzes.py POST /quizzes/generate`): 404 for a
missing or foreign document, 400 when the document is not yet `processed` —
raised before anything is added to the session, so the store is returned
unchanged — then quiz generation and one insert-commit.  `documentId`
arrives as a string and is coerced with `int(...)`; it is modelled as the
coerced number. -/
def generate_quiz (st : Store) (uid : Nat) (documentId : Nat)
    (difficulty : Option Str) (questionCount : Option Nat) (api : Except Unit Str) :
    Store × Except HErr Quiz :=
  match st.documents.find? (fun d => d.id == documentId && d.user_id == uid) with
  | none => (st, .error ⟨404, "Document not found".data⟩)
  | some doc =>
    if doc.processing_status ≠ .processed then
      (st, .error ⟨400, "Document must be fully processed before generating quiz".data⟩)
    else
      let diff := difficulty.getD "medium".data
      let qcount := min (questionCount.getD 10) 50
      match generate_quiz_from_document doc diff qcount api (st.quizzes.length + 1) with
      | .error e => (st, .error e)
      | .ok quiz => ({st with quizzes := st.quizzes ++ [quiz]}, .ok quiz)

/-- The parsing policy exactly as claim C3 words it — fence strip, direct
parse, regex-extraction of the first top-level `[...]` span with a retry,
drop of elements missing a required field, truncation to the requested
count, empty sequence on total failure.  Modelled from the claim, not from
the source, for comparison with the source parsers. -/
def claimQuizParser (count : Nat) (resp : Str) : List Json :=
  let raw := stripFenceTail (stripFenceHead (pyStrip resp))
  let parsed : Option Json :=
    match jsonParse raw with
    | some j => some j
    | none =>
      match regexBracketGreedy raw with
      | some sub => jsonParse sub
      | none => none
  match parsed with
  | some (Json.jarr qs) =>
    (qs.filter (fun q =>
      match q with
      | .jobj fs =>
        (pyDictGetJ fs "question".data).isSome && (pyDictGetJ fs "options".data).isSome &&
          (pyDictGetJ fs "answer".data).isSome
      | _ => false)).take count
  | _ => []

/-- The page texts joined by single newlines, as the specification words
the extractor's output. -/
def joinedByNewlines : List Str → Str
  | [] => []
  | [p] => p
  | p :: ps => p ++ '\n' :: joinedByNewlines ps

/-- A freshly uploaded document, as `upload_document` creates it. -/
def doc0 : Document :=
  { id := 1, user_id := 1, filename := "a.pdf".data, original_name := "a.pdf".data,
    file_path := "a.pdf".data, file_size := 4, mime_type := "application/pdf".data }

/-- A pipeline environment in which extraction succeeds and both model
calls fail (failures the orchestrator tolerates). -/
def envOk : PipelineEnv :=
  { pdf := .ok ["hello".data], summaryApi := .error (), quizApi := .error () }

/-- The document after one successful processing run. -/
def doc0done : Document := (process_document envOk (some doc0)).getLastD doc0

/-- The second committed state of a successful run. -/
def doc0mid : Document := (process_document envOk (some doc0)).getD 1 doc0

/-- A quiz with four questions whose correct answers are all `"A"`. -/
def quiz4 : Quiz :=
  { id := 1, document_id := 1,
    questions := (List.range 4).map (fun i => { id := i + 1, correct_answer := ['A'] }) }

/-- Three correct answers and one wrong one for `quiz4`. -/
def ans3 : List QuizAnswerRequest :=
  [⟨['1'], ['A'], true⟩, ⟨['2'], ['A'], true⟩, ⟨['3'], ['A'], true⟩, ⟨['4'], ['B'], false⟩]

/-- `ans3` with every `isCorrect` flag flipped. -/
def ans3flipped : List QuizAnswerRequest :=
  [⟨['1'], ['A'], false⟩, ⟨['2'], ['A'], false⟩, ⟨['3'], ['A'], false⟩, ⟨['4'], ['B'], true⟩]

/-- A fifty-question quiz whose correct answers are all `"A"`. -/
def quiz50 : Quiz :=
  { id := 1, document_id := 1,
    questions := (List.range 50).map (fun i => { id := i + 1, correct_answer := ['A'] }) }

/-- Exactly 29 of the 50 questions of `quiz50` answered correctly. -/
def ans29 : List QuizAnswerRequest :=
  (List.range 29).map (fun i => ⟨natStr (i + 1), ['A'], true⟩)

/-- A single-question quiz. -/
def quiz1 : Quiz :=
  { id := 1, document_id := 1, questions := [{ id := 1, correct_answer := ['A'] }] }

/-- The same correct answer submitted twice for the same question. -/
def dupAnswers : List QuizAnswerRequest :=
  [⟨['1'], ['A'], true⟩, ⟨['1'], ['A'], false⟩]

/-- A processed document with content, owning the example quizzes. -/
def docProcessed : Document :=
  { doc0 with processing_status := .processed, content := some "hello".data }

/-- A store joining `docProcessed` and `quiz4` for user 1. -/
def st4 : Store := { documents := [docProcessed], quizzes := [quiz4] }

/-- A document still being processed. -/
def docProcessing : Document := { doc0 with processing_status := .processing }

/-- A store whose only document is still being processed. -/
def stProcessing : Store := { documents := [docProcessing] }

/-- An oversized PDF upload: 20 MB, twice `MAX_FILE_SIZE`. -/
def bigFile : UploadFile :=
  { filename := "big.pdf".data, content_type := "application/pdf".data, size := 20971520 }

/-- A plain-text upload. -/
def txtFile : UploadFile :=
  { filename := "notes.txt".data, content_type := "text/plain".data, size := 4 }

/-- The empty store. -/
def emptyStore : Store := {}

/-- A model response whose fence-free text fails a direct JSON parse but
contains a JSON array recoverable by regex extraction. -/
def exC3 : Str :=
  ("Here is the quiz: [\x7b\"question\": \"Q1?\", \"options\": " ++
    "\x7b\"A\": \"x\", \"B\": \"y\"\x7d, \"answer\": \"A\"\x7d]").data

/-- The question record contained in `exC3`. -/
def exC3elem : Json :=
  Json.jobj [("question".data, Json.jstr "Q1?".data),
    ("options".data, Json.jobj [("A".data, Json.jstr "x".data), ("B".data, Json.jstr "y".data)]),
    ("answer".data, Json.jstr "A".data)]

/-- The summarizer example response from the specification. -/
def exC4 : Str := "SUMMARY:\nFoo\n\nKEY_TOPICS:\n[\"a\",\"b\"]".data

/-- An element fetched by index with a default is a member. -/
theorem getD_mem {α : Type} : ∀ (l : List α) (n : Nat) (d : α), n < l.length → l.getD n d ∈ l
  | [], n, d, h => absurd h (by simp)
  | a :: t, 0, d, _ => List.mem_cons_self a t
  | a :: t, n + 1, d, h =>
    List.mem_cons_of_mem a (getD_mem t n d (by simpa using h))

/-- Dropping whitespace from a string extended by one whitespace char. -/
theorem dropWhile_append_ws (s : Str) (c : Char) (hc : isPyWs c = true) :
    (s ++ [c]).dropWhile isPyWs =
      if (s.dropWhile isPyWs).isEmpty then [] else s.dropWhile isPyWs ++ [c] := by
  induction s with
  | nil => simp [List.dropWhile, hc]
  | cons a s' ih =>
    by_cases ha : isPyWs a = true
    · simpa [List.dropWhile_cons, ha] using ih
    · simp [List.dropWhile_cons, ha]

/-- Stripping ignores one trailing newline. -/
theorem pyStrip_append_newline (s : Str) : pyStrip (s ++ ['\n']) = pyStrip s := by
  unfold pyStrip
  rw [dropWhile_append_ws s '\n' rfl]
  by_cases h : (s.dropWhile isPyWs).isEmpty
  · rw [if_pos h]
    rw [List.isEmpty_iff.mp h]
  · rw [if_neg h]
    rw [List.reverse_append]
    simp only [List.reverse_cons, List.reverse_nil, List.nil_append, List.singleton_append]
    rw [List.dropWhile_cons_of_pos (by rfl)]

/-- The extractor's page loop equals a newline join followed by one
trailing newline. -/
theorem joinPages_eq_joined : ∀ (p : Str) (ps : List Str),
    joinPages (p :: ps) = joinedByNewlines (p :: ps) ++ ['\n']
  | p, [] => by simp [joinPages, joinedByNewlines]
  | p, q :: ps => by
    rw [show joinPages (p :: q :: ps) = p ++ '\n' :: joinPages (q :: ps) from rfl]
    rw [joinPages_eq_joined q ps]
    rw [show joinedByNewlines (p :: q :: ps) = p ++ '\n' :: joinedByNewlines (q :: ps) from rfl]
    simp

/-- C5: for every PDF-read outcome, `extract_pdf_text` returns a string and
`get_pdf_page_count` a natural number (they are total functions — any
exception is caught); on a read/parse error the results are the empty
string and zero, and on success the text is the page texts joined by single
newlines with leading and trailing whitespace trimmed, with the page count
the number of pages. -/
theorem C5_extractor_fails_soft :
    (extract_pdf_text (.error ()) = [] ∧ get_pdf_page_count (.error ()) = 0) ∧
    ∀ pages : List Str,
      extract_pdf_text (.ok pages) = pyStrip (joinedByNewlines pages) ∧
      get_pdf_page_count (.ok pages) = pages.length := by
  refine ⟨⟨rfl, rfl⟩, fun pages => ⟨?_, rfl⟩⟩
  cases pages with
  | nil => rfl
  | cons p ps =>
    show pyStrip (joinPages (p :: ps)) = _
    rw [joinPages_eq_joined, pyStrip_append_newline]

/-- C4: the summarizer parser — transport failure yields the sentinel pair;
the specification's example yields `("Foo", ["a","b"])`; a missing marker
yields the whole stripped response with no topics; a failing topics parse
yields the whole stripped response with no topics; and a succeeding topics
parse yields the extracted summary section with the parsed topics. -/
theorem C4_summarizer_parsing :
    (generate_summary_and_topics (.error ()) = ("Summary generation failed".data, Json.jarr [])) ∧
    (generate_summary_and_topics (.ok exC4)
      = ("Foo".data, Json.jarr [Json.jstr "a".data, Json.jstr "b".data])) ∧
    (∀ content : Str,
      (strContains "SUMMARY:".data content && strContains "KEY_TOPICS:".data content) = false →
      generate_summary_and_topics (.ok content) = (pyStrip content, Json.jarr [])) ∧
    (∀ content inner : Str,
      strContains "SUMMARY:".data content = true →
      strContains "KEY_TOPICS:".data content = true →
      regexBracketLazy (topicsSection content) = some inner →
      jsonParse ('[' :: inner ++ [']']) = none →
      generate_summary_and_topics (.ok content) = (pyStrip content, Json.jarr [])) ∧
    (∀ (content inner : Str) (topics : Json),
      strContains "SUMMARY:".data content = true →
      strContains "KEY_TOPICS:".data content = true →
      regexBracketLazy (topicsSection content) = some inner →
      jsonParse ('[' :: inner ++ [']']) = some topics →
      generate_summary_and_topics (.ok content) = (summarySection content, topics)) := by
  refine ⟨rfl, rfl, ?_, ?_, ?_⟩
  · intro content h
    simp [generate_summary_and_topics, h]
  · intro content inner h1 h2 h3 h4
    rw [List.cons_append] at h4
    simp [generate_summary_and_topics, h1, h2, h3, h4]
  · intro content inner topics h1 h2 h3 h4
    rw [List.cons_append] at h4
    simp [generate_summary_and_topics, h1, h2, h3, h4]

/-- C4 witness: the fallback branches at concrete inputs, via the theorem. -/
theorem C4_summarizer_witness :
    generate_summary_and_topics (.ok "no markers here".data)
      = (pyStrip "no markers here".data, Json.jarr []) ∧
    generate_summary_and_topics (.ok "SUMMARY:\nX\n\nKEY_TOPICS:\n[oops]".data)
      = (pyStrip "SUMMARY:\nX\n\nKEY_TOPICS:\n[oops]".data, Json.jarr []) := by
  constructor
  · exact C4_summarizer_parsing.2.2.1 _ rfl
  · exact C4_summarizer_parsing.2.2.2.1 _ "oops".data rfl rfl rfl rfl

/-- Every element the validation loop keeps has all required fields. -/
theorem validLoop_mem : ∀ (elems valid : List Json), validLoop elems = some valid →
    ∀ q ∈ valid, hasRequired q = some true := by
  intro elems
  induction elems with
  | nil =>
    intro valid h q hq
    simp [validLoop] at h
    subst h
    simp at hq
  | cons x rest ih =>
    intro valid h q hq
    unfold validLoop at h
    cases hx : hasRequired x with
    | none => rw [hx] at h; simp at h
    | some b =>
      rw [hx] at h
      cases hrest : validLoop rest with
      | none => rw [hrest] at h; simp at h
      | some vs =>
        rw [hrest] at h
        simp at h
        subst h
        cases b with
        | false =>
          simp at hq
          exact ih vs hrest q hq
        | true =>
          simp at hq
          rcases hq with hq | hq
          · subst hq; exact hx
          · exact ih vs hrest q hq

/-- C3 (counterexample): on a response whose cleaned text fails the direct
JSON parse but contains a regex-recoverable array, the claimed policy
returns the recovered question while `_generate_questions_ai` returns the
empty sequence — the regex-retry step (c) does not exist in this parser. -/
theorem C3_no_regex_retry :
    generate_questions_ai 5 (.ok exC3) = [] ∧
    claimQuizParser 5 exC3 = [exC3elem] ∧
    claimQuizParser 5 exC3 ≠ generate_questions_ai 5 (.ok exC3) := by
  refine ⟨rfl, rfl, ?_⟩
  intro hcon
  rw [show claimQuizParser 5 exC3 = [exC3elem] from rfl,
      show generate_questions_ai 5 (.ok exC3) = [] from rfl] at hcon
  exact List.noConfusion hcon

/-- C3 (amended): `_generate_questions_ai` returns the empty sequence on
transport failure; never more than the requested count; every returned
element has the required `question`/`options`/`answer` fields; and a failed
direct JSON parse of the fence-cleaned text yields the empty sequence (no
regex retry). -/
theorem C3_quiz_parser_policy (count : Nat) (resp : Str) :
    generate_questions_ai count (.error ()) = [] ∧
    (generate_questions_ai count (.ok resp)).length ≤ count ∧
    (∀ q ∈ generate_questions_ai count (.ok resp), hasRequired q = some true) ∧
    (jsonParse (cleanQuizOutput resp) = none → generate_questions_ai count (.ok resp) = []) := by
  refine ⟨rfl, ?_, ?_, ?_⟩
  · unfold generate_questions_ai
    cases hj : jsonParse (cleanQuizOutput resp) with
    | none => simp [hj]
    | some j =>
      cases hi : pyIter j with
      | none => simp [hj, hi]
      | some elems =>
        cases hv : validLoop elems with
        | none => simp [hj, hi, hv]
        | some valid =>
          simp [hj, hi, hv, List.length_take]
  · intro q hq
    simp only [generate_questions_ai] at hq
    cases hj : jsonParse (cleanQuizOutput resp) with
    | none => simp [hj] at hq
    | some j =>
      simp only [hj] at hq
      cases hi : pyIter j with
      | none => simp [hi] at hq
      | some elems =>
        simp only [hi] at hq
        cases hv : validLoop elems with
        | none => simp [hv] at hq
        | some valid =>
          simp only [hv] at hq
          exact validLoop_mem elems valid hv q ((List.take_sublist count valid).subset hq)
  · intro hnone
    simp only [generate_questions_ai]
    rw [hnone]

/-- C3 witness: totally invalid text yields the empty sequence, via the
amended theorem's parse-failure clause. -/
theorem C3_quiz_parser_witness :
    generate_questions_ai 5 (.ok "totally invalid".data) = [] :=
  (C3_quiz_parser_policy 5 "totally invalid".data).2.2.2 rfl

/-- C1 (counterexample): after a successful run the document is in the
terminal state `processed`, yet a second invocation of `process_document`
on the same document first commits `processing` — a transition the claimed
state machine forbids, so terminal states are not preserved across
re-invocation. -/
theorem C1_rerun_leaves_terminal :
    doc0done.processing_status = PStatus.processed ∧
    ((process_document envOk (some doc0done)).map (·.processing_status)).head?
      = some PStatus.processing ∧
    allowedStep PStatus.processed PStatus.processing = false :=
  ⟨rfl, rfl, rfl⟩

/-- C1 (amended): within a single orchestrator run started on a `pending`
document, every adjacent pair of observable statuses is an allowed forward
step (`pending → processing → processed|failed`, commits without a status
change included), and the run ends in a terminal state.  Only re-invocation
breaks terminality. -/
theorem C1_status_forward_within_run (env : PipelineEnv) (d : Document)
    (h : d.processing_status = .pending) :
    chainOk (statusTrace env d) = true ∧
    ((statusTrace env d).getLastD .pending = .processed ∨
      (statusTrace env d).getLastD .pending = .failed) := by
  unfold statusTrace process_document
  rw [h]
  by_cases he : (extract_pdf_text env.pdf).isEmpty
  · simp [he, chainOk, allowedStep, List.getLastD]
  · by_cases hq : quizRowsOk (generate_quiz_questions env.quizApi)
    · simp [he, hq, chainOk, allowedStep, List.getLastD]
    · simp [he, hq, chainOk, allowedStep, List.getLastD]

/-- C1 witness: the amended theorem at a concrete pending document and a
concrete successful environment. -/
theorem C1_status_forward_witness :
    chainOk (statusTrace envOk doc0) = true ∧
    ((statusTrace envOk doc0).getLastD .pending = .processed ∨
      (statusTrace envOk doc0).getLastD .pending = .failed) :=
  C1_status_forward_within_run envOk doc0 rfl

/-- C6 (counterexample): the second committed state of a successful run
already carries the extracted `content` while `processing_status` is still
`processing` — the extracted text and page count are committed in their own
transaction before the transition to `processed`. -/
theorem C6_content_committed_while_processing :
    doc0mid.content.isSome = true ∧ doc0mid.processing_status = PStatus.processing :=
  ⟨rfl, rfl⟩

/-- C6 (amended): starting from a fresh `pending` document, `summary` and
`key_topics` stay absent in every committed state whose status is not
`processed` (they are committed only together with the `processed`
transition and timestamp), while `content`/`page_count` are committed
earlier, during `processing`. -/
theorem C6_summary_hidden_until_processed (env : PipelineEnv) (d : Document)
    (h1 : d.processing_status = .pending) (h2 : d.summary = none)
    (h3 : d.key_topics = none) :
    ∀ s ∈ process_document env (some d),
      (s.processing_status ≠ .processed → s.summary = none ∧ s.key_topics = none) ∧
      (s.processing_status = .processed →
        s.summary.isSome = true ∧ s.key_topics.isSome = true ∧
          s.content.isSome = true ∧ s.processed_at = true) := by
  unfold process_document
  by_cases he : (extract_pdf_text env.pdf).isEmpty
  · intro s hs
    simp only [he, if_true, List.mem_cons, List.mem_singleton, List.not_mem_nil, or_false] at hs
    rcases hs with hs | hs <;> subst hs <;> simp [h2, h3]
  · by_cases hq : quizRowsOk (generate_quiz_questions env.quizApi) <;>
      · intro s hs
        simp only [he, hq, if_true, if_false, Bool.false_eq_true,
          List.mem_cons, List.mem_singleton, List.not_mem_nil, or_false] at hs
        rcases hs with hs | hs | hs <;> subst hs <;> simp [h2, h3]

/-- C6 witness: the amended theorem's first clause at the concrete
mid-state of a successful run. -/
theorem C6_hidden_witness : doc0mid.summary = none ∧ doc0mid.key_topics = none := by
  have hm : doc0mid ∈ process_document envOk (some doc0) :=
    getD_mem (process_document envOk (some doc0)) 1 doc0 (by decide)
  exact (C6_summary_hidden_until_processed envOk doc0 rfl rfl rfl doc0mid hm).1 (by decide)

/-- C8: when the referenced document is found and owned by the caller but
its status is not `processed`, `POST /quizzes/generate` returns the 400
error raised before anything is added to the session, and the store —
in particular the quiz table — is returned unchanged. -/
theorem C8_unprocessed_rejected_400 (st : Store) (uid documentId : Nat)
    (difficulty : Option Str) (questionCount : Option Nat) (api : Except Unit Str)
    (doc : Document)
    (hfind : st.documents.find? (fun d => d.id == documentId && d.user_id == uid) = some doc)
    (hstatus : doc.processing_status ≠ .processed) :
    generate_quiz st uid documentId difficulty questionCount api =
      (st, .error ⟨400, "Document must be fully processed before generating quiz".data⟩) := by
  unfold generate_quiz
  rw [hfind]
  simp [hstatus]

/-- C8 witness: the theorem at a store whose only document is still
`processing`. -/
theorem C8_unprocessed_witness :
    generate_quiz stProcessing 1 1 none none (.error ()) =
      (stProcessing,
        .error ⟨400, "Document must be fully processed before generating quiz".data⟩) :=
  C8_unprocessed_rejected_400 stProcessing 1 1 none none (.error ()) docProcessing rfl
    (by decide)

/-- C9: the upload endpoint rejects a wrong MIME type with a 400 before any
`Document` row is created, as the claim says; but the oversized-file check
exists only in the never-invoked `validate_file` helper — an upload of a
20 MB PDF (twice `MAX_FILE_SIZE`, which `validate_file` would reject
with 413) succeeds and creates the `Document` row. -/
theorem C9_oversized_upload_accepted :
    MAX_FILE_SIZE < bigFile.size ∧
    validate_file bigFile
      = .error ⟨413, "File too large. Maximum size: 10485760 bytes".data⟩ ∧
    (upload_document emptyStore 1 txtFile).2
      = .error ⟨400, "Only PDF files are supported".data⟩ ∧
    (upload_document emptyStore 1 txtFile).1 = emptyStore ∧
    (upload_document emptyStore 1 bigFile).1.documents =
      [{ id := 1, user_id := 1, filename := "big.pdf".data,
         original_name := "big.pdf".data, file_path := "big.pdf".data,
         file_size := 20971520, mime_type := "application/pdf".data }] ∧
    (upload_document emptyStore 1 bigFile).2 =
      .ok { id := 1, user_id := 1, filename := "big.pdf".data,
            original_name := "big.pdf".data, file_path := "big.pdf".data,
            file_size := 20971520, mime_type := "application/pdf".data } :=
  ⟨by decide, rfl, rfl, rfl, rfl, rfl⟩

/-- The score depends only on the `(questionId, answer)` projection of the
submitted answers. -/
theorem calculate_score_proj (quiz : Quiz) : ∀ (a1 a2 : List QuizAnswerRequest),
    a1.map (fun a => (a.questionId, a.answer)) = a2.map (fun a => (a.questionId, a.answer)) →
    calculate_score quiz a1 = calculate_score quiz a2 := by
  have hcount : ∀ (p : Str × Str → Bool) (a1 a2 : List QuizAnswerRequest),
      a1.map (fun a => (a.questionId, a.answer)) = a2.map (fun a => (a.questionId, a.answer)) →
      a1.countP (fun a => p (a.questionId, a.answer))
        = a2.countP (fun a => p (a.questionId, a.answer)) := by
    intro p a1
    induction a1 with
    | nil => intro a2 h; cases a2 with
      | nil => rfl
      | cons y ys => simp at h
    | cons x xs ih =>
      intro a2 h
      cases a2 with
      | nil => simp at h
      | cons y ys =>
        simp only [List.map_cons, List.cons.injEq] at h
        obtain ⟨h1, h2⟩ := h
        simp only [List.countP_cons, ih ys h2, h1]
  intro a1 a2 h
  unfold calculate_score
  have hlen : a1.length = a2.length := by
    have := congrArg List.length h
    simpa using this
  have hemp : a1.isEmpty = a2.isEmpty := by
    cases a1 <;> cases a2 <;> simp_all
  rw [hemp]
  by_cases hg : (quiz.questions.isEmpty || a2.isEmpty) = true
  · simp only [hg, if_pos]
  · simp only [if_neg hg]
    exact congrArg (fun cc => pyFloatPct cc quiz.questions.length)
      (hcount
        (fun pr =>
          match pyDictGet (quiz.questions.map (fun q => (natStr q.id, q.correct_answer))) pr.1 with
          | some ca => pr.2 == ca
          | none => false) a1 a2 h)

/-- C10: two submissions that agree on every `(questionId, answer)` pair
and differ only in the caller-supplied `isCorrect` flags score identically,
and the stored submissions record the same score — `isCorrect` has no
influence on scoring. -/
theorem C10_isCorrect_no_influence (quiz : Quiz) (a1 a2 : List QuizAnswerRequest)
    (h : a1.map (fun a => (a.questionId, a.answer))
      = a2.map (fun a => (a.questionId, a.answer))) :
    calculate_score quiz a1 = calculate_score quiz a2 ∧
    ∀ st uid qid,
      (submit_quiz st uid qid a1).2.map (·.score)
        = (submit_quiz st uid qid a2).2.map (·.score) := by
  refine ⟨calculate_score_proj quiz a1 a2 h, ?_⟩
  intro st uid qid
  unfold submit_quiz
  cases hf : findQuiz st uid qid with
  | none => simp
  | some quiz' => simp [Except.map, calculate_score_proj quiz' a1 a2 h]

/-- C10 witness: flipping every `isCorrect` flag of a concrete submission
leaves the computed and stored score unchanged. -/
theorem C10_isCorrect_witness :
    calculate_score quiz4 ans3 = calculate_score quiz4 ans3flipped ∧
    (submit_quiz st4 1 1 ans3).2.map (·.score)
      = (submit_quiz st4 1 1 ans3flipped).2.map (·.score) := by
  have h := C10_isCorrect_no_influence quiz4 ans3 ans3flipped rfl
  exact ⟨h.1, h.2 st4 1 1⟩

/-- Round-half-even never exceeds the real quotient by more than a half. -/
theorem rndHalfEven_mul_le (n d : Nat) (hd : 0 < d) :
    2 * d * rndHalfEven n d ≤ 2 * n + d := by
  have hnd : d * (n / d) + n % d = n := Nat.div_add_mod n d
  have hr : n % d < d := Nat.mod_lt _ hd
  have key : ∀ up : Nat, up ≤ 1 → 2 * up * d ≤ 2 * (n % d) + d →
      2 * d * (n / d + up) ≤ 2 * n + d := by
    intro up hup hcase
    calc 2 * d * (n / d + up) = 2 * (d * (n / d)) + 2 * up * d := by ring
      _ ≤ 2 * (d * (n / d)) + (2 * (n % d) + d) := Nat.add_le_add_left hcase _
      _ = 2 * (d * (n / d) + n % d) + d := by ring
      _ = 2 * n + d := by rw [hnd]
  simp only [rndHalfEven]
  split_ifs with h1 h2 h3
  · exact key 1 (le_refl 1) (by omega)
  · exact key 0 (by omega) (by omega)
  · exact key 1 (le_refl 1) (by omega)
  · exact key 0 (by omega) (by omega)

/-- Round-half-even is at least the floor of the quotient. -/
theorem le_rndHalfEven (n d : Nat) : n / d ≤ rndHalfEven n d := by
  simp only [rndHalfEven]
  split_ifs <;> omega

/-- `scaleDown` stops immediately when the bound already holds. -/
theorem scaleDown_immediate (f n d : Nat) (e : Int) (hf : 0 < f)
    (h : n < d * 2 ^ 53) : scaleDown f n d e = (d, e) := by
  cases f with
  | zero => omega
  | succ f =>
    simp only [scaleDown]
    rw [if_pos h]

/-- `scaleUp` stops immediately when the bound already holds. -/
theorem scaleUp_immediate (d f n : Nat) (e : Int) (hf : 0 < f)
    (h : d * 2 ^ 52 ≤ n) : scaleUp d f n e = (n, e) := by
  cases f with
  | zero => omega
  | succ f =>
    simp only [scaleUp]
    rw [if_pos h]

/-- With enough fuel, `scaleDown` doubles the denominator until the value
fits below `2^53`, and the last doubling was necessary. -/
theorem scaleDown_spec : ∀ (f n d : Nat) (e : Int), n < d * 2 ^ f * 2 ^ 53 →
    ∃ k, k ≤ f ∧ scaleDown f n d e = (d * 2 ^ k, e + k) ∧ n < d * 2 ^ k * 2 ^ 53 ∧
      (k = 0 ∨ d * 2 ^ (k - 1) * 2 ^ 53 ≤ n) := by
  intro f
  induction f with
  | zero =>
    intro n d e h
    refine ⟨0, Nat.le_refl 0, ?_, by simpa using h, Or.inl rfl⟩
    simp [scaleDown]
  | succ f ih =>
    intro n d e h
    by_cases hlt : n < d * 2 ^ 53
    · refine ⟨0, Nat.zero_le _, ?_, by simpa using hlt, Or.inl rfl⟩
      simp only [scaleDown]
      rw [if_pos hlt]
      simp
    · have h' : n < (2 * d) * 2 ^ f * 2 ^ 53 := by
        have : d * 2 ^ (f + 1) = 2 * d * 2 ^ f := by ring
        rw [this] at h
        exact h
      obtain ⟨k, hk, heq, hub, hlb⟩ := ih n (2 * d) (e + 1) h'
      refine ⟨k + 1, by omega, ?_, ?_, Or.inr ?_⟩
      · rw [show scaleDown (f + 1) n d e = scaleDown f n (2 * d) (e + 1) by
          simp only [scaleDown]
          rw [if_neg hlt]]
        rw [heq]
        refine Prod.ext ?_ ?_
        · show 2 * d * 2 ^ k = d * 2 ^ (k + 1)
          ring
        · show e + 1 + (k : Int) = e + ((k : Nat) + 1 : Nat)
          push_cast
          ring
      · calc n < 2 * d * 2 ^ k * 2 ^ 53 := hub
          _ = d * 2 ^ (k + 1) * 2 ^ 53 := by ring
      · rcases hlb with h0 | hlb
        · subst h0
          simpa using Nat.le_of_not_lt hlt
        · refine le_trans ?_ hlb
          cases k with
          | zero =>
            simp
            omega
          | succ k' =>
            apply le_of_eq
            have : k' + 1 + 1 - 1 = k' + 1 := rfl
            rw [this, Nat.succ_sub_one]
            ring

/-- With enough fuel, `scaleUp` doubles the numerator until it reaches
`d * 2^52`, and the last doubling was necessary. -/
theorem scaleUp_spec (d : Nat) : ∀ (f n : Nat) (e : Int), 0 < n →
    d * 2 ^ 52 ≤ n * 2 ^ f →
    ∃ s, s ≤ f ∧ scaleUp d f n e = (n * 2 ^ s, e - s) ∧ d * 2 ^ 52 ≤ n * 2 ^ s ∧
      (s = 0 ∨ n * 2 ^ (s - 1) < d * 2 ^ 52) := by
  intro f
  induction f with
  | zero =>
    intro n e hn h
    refine ⟨0, Nat.le_refl 0, ?_, by simpa using h, Or.inl rfl⟩
    simp [scaleUp]
  | succ f ih =>
    intro n e hn h
    by_cases hge : d * 2 ^ 52 ≤ n
    · refine ⟨0, Nat.zero_le _, ?_, by simpa using hge, Or.inl rfl⟩
      simp only [scaleUp]
      rw [if_pos hge]
      simp
    · have h' : d * 2 ^ 52 ≤ (2 * n) * 2 ^ f := by
        have : n * 2 ^ (f + 1) = 2 * n * 2 ^ f := by ring
        rw [this] at h
        exact h
      obtain ⟨s, hs, heq, hlow, hmin⟩ := ih (2 * n) (e - 1) (by omega) h'
      refine ⟨s + 1, by omega, ?_, ?_, Or.inr ?_⟩
      · rw [show scaleUp d (f + 1) n e = scaleUp d f (2 * n) (e - 1) by
          simp only [scaleUp]
          rw [if_neg hge]]
        rw [heq]
        refine Prod.ext ?_ ?_
        · show 2 * n * 2 ^ s = n * 2 ^ (s + 1)
          ring
        · show e - 1 - (s : Int) = e - ((s : Nat) + 1 : Nat)
          push_cast
          ring
      · calc d * 2 ^ 52 ≤ 2 * n * 2 ^ s := hlow
          _ = n * 2 ^ (s + 1) := by ring
      · rcases hmin with h0 | hmin
        · subst h0
          simpa using Nat.lt_of_not_le hge
        · refine lt_of_le_of_lt ?_ hmin
          cases s with
          | zero =>
            simp
            omega
          | succ s' =>
            apply le_of_eq
            have : s' + 1 + 1 - 1 = s' + 1 := rfl
            rw [this, Nat.succ_sub_one]
            ring

/-- For `0 < cc ≤ t` the binary64 quotient `cc / t` is a normalized value
`m * 2 ^ (-s)` with `m ≤ 2 ^ s` (the value is at most `1 + 2^(-53)`),
`52 ≤ s`, and `2^52 ≤ m < 2^53`. -/
theorem floatOfRat_le_one (cc t : Nat) (h1 : 0 < cc) (h2 : cc ≤ t) :
    ∃ m s : Nat, floatOfRat cc t = ⟨m, -(s : Int)⟩ ∧ 2 ^ 52 ≤ m ∧ m < 2 ^ 53 ∧
      m ≤ 2 ^ s ∧ 52 ≤ s := by
  have ht : 0 < t := lt_of_lt_of_le h1 h2
  have hcc53 : cc < t * 2 ^ 53 := by
    have ht53 : t * 1 < t * 2 ^ 53 := by
      have : (1 : Nat) < 2 ^ 53 := by norm_num
      exact (Nat.mul_lt_mul_left ht).mpr this
    calc cc ≤ t := h2
      _ = t * 1 := by ring
      _ < t * 2 ^ 53 := ht53
  have hsd : scaleDown cc cc t 0 = (t, 0) := scaleDown_immediate cc cc t 0 h1 hcc53
  have hfuel : t * 2 ^ 52 ≤ cc * 2 ^ (t + 60) := by
    have h2t : t < 2 ^ t := Nat.lt_two_pow t
    calc t * 2 ^ 52 ≤ 2 ^ t * 2 ^ 52 := Nat.mul_le_mul_right _ (le_of_lt h2t)
      _ ≤ 2 ^ t * 2 ^ 60 := Nat.mul_le_mul_left _ (by norm_num)
      _ = 1 * 2 ^ (t + 60) := by rw [pow_add]; ring
      _ ≤ cc * 2 ^ (t + 60) := Nat.mul_le_mul_right _ h1
  obtain ⟨s, hs_le, hsu, hlow, hmin⟩ := scaleUp_spec t (t + 60) cc 0 h1 hfuel
  have hub : cc * 2 ^ s < t * 2 ^ 53 := by
    rcases hmin with h0 | hmin
    · subst h0; simpa using hcc53
    · cases s with
      | zero => simpa using hcc53
      | succ s' =>
        have e1 : cc * 2 ^ (s' + 1) = 2 * (cc * 2 ^ s') := by ring
        have e2 : t * 2 ^ 53 = 2 * (t * 2 ^ 52) := by ring
        rw [e1, e2]
        have hmin' : cc * 2 ^ s' < t * 2 ^ 52 := by simpa using hmin
        omega
  set m0 := rndHalfEven (cc * 2 ^ s) t with hm0
  have hm_low : 2 ^ 52 ≤ m0 := by
    refine le_trans ?_ (le_rndHalfEven (cc * 2 ^ s) t)
    rw [Nat.le_div_iff_mul_le ht]
    calc 2 ^ 52 * t = t * 2 ^ 52 := by ring
      _ ≤ cc * 2 ^ s := hlow
  have hrnd := rndHalfEven_mul_le (cc * 2 ^ s) t ht
  have hm_le : m0 ≤ 2 ^ s := by
    have step : 2 * t * m0 ≤ t * (2 * 2 ^ s + 1) := by
      calc 2 * t * m0 ≤ 2 * (cc * 2 ^ s) + t := hrnd
        _ ≤ 2 * (t * 2 ^ s) + t := by
            have hmul : cc * 2 ^ s ≤ t * 2 ^ s := Nat.mul_le_mul_right _ h2
            omega
        _ = t * (2 * 2 ^ s + 1) := by ring
    have h2m : 2 * m0 ≤ 2 * 2 ^ s + 1 := by
      have h' : t * (2 * m0) ≤ t * (2 * 2 ^ s + 1) := by
        calc t * (2 * m0) = 2 * t * m0 := by ring
          _ ≤ _ := step
      exact Nat.le_of_mul_le_mul_left h' ht
    omega
  have hm_ub : m0 ≤ 2 ^ 53 := by
    have step : 2 * t * m0 < t * (2 ^ 54 + 1) := by
      calc 2 * t * m0 ≤ 2 * (cc * 2 ^ s) + t := hrnd
        _ < 2 * (t * 2 ^ 53) + t := by omega
        _ = t * (2 ^ 54 + 1) := by ring
    have h2m : 2 * m0 < 2 ^ 54 + 1 := by
      have h' : t * (2 * m0) < t * (2 ^ 54 + 1) := by
        calc t * (2 * m0) = 2 * t * m0 := by ring
          _ < _ := step
      exact Nat.lt_of_mul_lt_mul_left h'
    omega
  have hrepr : floatOfRat cc t =
      (if rndHalfEven (cc * 2 ^ s) t = 2 ^ 53 then (⟨2 ^ 52, 0 - (s : Int) + 1⟩ : F64)
       else ⟨rndHalfEven (cc * 2 ^ s) t, 0 - (s : Int)⟩) := by
    unfold floatOfRat normPos
    rw [if_neg (by omega : ¬ cc = 0)]
    simp only [hsd, hsu]
  by_cases hcar : m0 = 2 ^ 53
  · have hs53 : 53 ≤ s := by
      have : (2 : Nat) ^ 53 ≤ 2 ^ s := by rw [← hcar]; exact hm_le
      exact (Nat.pow_le_pow_iff_right (by norm_num)).mp this
    refine ⟨2 ^ 52, s - 1, ?_, le_refl _, by norm_num, ?_, by omega⟩
    · rw [hrepr, if_pos (by rw [← hm0]; exact hcar)]
      have : (0 : Int) - (s : Int) + 1 = -((s - 1 : Nat) : Int) := by omega
      rw [this]
    · exact Nat.pow_le_pow_right (by norm_num) (by omega)
  · have hs52 : 52 ≤ s := by
      have : (2 : Nat) ^ 52 ≤ 2 ^ s := le_trans hm_low hm_le
      exact (Nat.pow_le_pow_iff_right (by norm_num)).mp this
    refine ⟨m0, s, ?_, hm_low, lt_of_le_of_ne hm_ub hcar, hm_le, hs52⟩
    rw [hrepr, if_neg (by rw [← hm0]; exact hcar)]
    have : (0 : Int) - (s : Int) = -((s : Nat) : Int) := by omega
    rw [this]

/-- Truncation of a negative-exponent value, with the exponent written as a
coerced successor. -/
theorem pyTrunc_neg_coe (m j : Nat) : pyTrunc ⟨m, -((j + 1 : Nat) : Int)⟩ = m / 2 ^ (j + 1) := by
  have h : -((j + 1 : Nat) : Int) = Int.negSucc j := by
    rw [Int.negSucc_eq]
    push_cast
    ring
  rw [h]
  rfl

/-- Multiplying a binary64 value that is at most `1 + 2^(-53)` by `100.0`
and truncating yields at most `100`. -/
theorem normPos_hundred_trunc_le (m1 s1 : Nat) (h_low : 2 ^ 52 ≤ m1) (h_ub : m1 < 2 ^ 53)
    (h_le : m1 ≤ 2 ^ s1) (h_s : 52 ≤ s1) :
    pyTrunc (normPos (100 * m1) 1 (-(s1 : Int))) ≤ 100 := by
  have hm1pos : 0 < m1 := lt_of_lt_of_le (by norm_num) h_low
  have hadq : 100 * m1 < 1 * 2 ^ (100 * m1) * 2 ^ 53 := by
    have h1 := Nat.lt_two_pow (100 * m1)
    have h2 : (2 : Nat) ^ (100 * m1) ≤ 1 * 2 ^ (100 * m1) * 2 ^ 53 := by
      rw [one_mul]
      exact Nat.le_mul_of_pos_right _ (by positivity)
    omega
  obtain ⟨k, hk_le, heq, hub2, hlb2⟩ :=
    scaleDown_spec (100 * m1) (100 * m1) 1 (-(s1 : Int)) hadq
  have hk7 : k ≤ 7 := by
    rcases hlb2 with h0 | hlb2
    · omega
    · have hlt : 100 * m1 < 100 * 2 ^ 53 := (Nat.mul_lt_mul_left (by norm_num)).mpr h_ub
      have h1 : 2 ^ (k - 1) * 2 ^ 53 < 100 * 2 ^ 53 := by
        calc 2 ^ (k - 1) * 2 ^ 53 = 1 * 2 ^ (k - 1) * 2 ^ 53 := by ring
          _ ≤ 100 * m1 := hlb2
          _ < 100 * 2 ^ 53 := hlt
      have h2 : 2 ^ (k - 1) < 100 := Nat.lt_of_mul_lt_mul_right h1
      by_contra hcon
      push_neg at hcon
      have h3 : (2 : Nat) ^ 7 ≤ 2 ^ (k - 1) := Nat.pow_le_pow_right (by norm_num) (by omega)
      norm_num at h3
      omega
  have himm : (1 * 2 ^ k) * 2 ^ 52 ≤ 100 * m1 := by
    cases k with
    | zero =>
      simp only [pow_zero, mul_one, one_mul]
      omega
    | succ k' =>
      rcases hlb2 with h0 | hlb2
      · exact absurd h0 (Nat.succ_ne_zero k')
      · have e : (1 * 2 ^ (k' + 1)) * 2 ^ 52 = 1 * 2 ^ (k' + 1 - 1) * 2 ^ 53 := by
          rw [Nat.succ_sub_one]
          ring
        rw [e]
        exact hlb2
  have hsuim : scaleUp (1 * 2 ^ k) ((1 * 2 ^ k) + 60) (100 * m1) (-(s1 : Int) + k)
      = (100 * m1, -(s1 : Int) + k) :=
    scaleUp_immediate _ _ _ _ (by positivity) himm
  have hrepr : normPos (100 * m1) 1 (-(s1 : Int)) =
      (if rndHalfEven (100 * m1) (1 * 2 ^ k) = 2 ^ 53 then
        (⟨2 ^ 52, (-(s1 : Int) + k) + 1⟩ : F64)
       else ⟨rndHalfEven (100 * m1) (1 * 2 ^ k), -(s1 : Int) + k⟩) := by
    unfold normPos
    simp only [heq, hsuim]
  set m2 := rndHalfEven (100 * m1) (1 * 2 ^ k) with hm2def
  have hrnd2 := rndHalfEven_mul_le (100 * m1) (1 * 2 ^ k) (by positivity)
  have hkey : m2 * 2 ^ (k + 1) ≤ 201 * 2 ^ s1 := by
    have e1 : 2 * (1 * 2 ^ k) * m2 = m2 * 2 ^ (k + 1) := by ring
    have h2 : m2 * 2 ^ (k + 1) ≤ 2 * (100 * m1) + 1 * 2 ^ k := by
      rw [← e1]
      exact hrnd2
    have h3 : 2 * (100 * m1) ≤ 200 * 2 ^ s1 := by
      calc 2 * (100 * m1) = 200 * m1 := by ring
        _ ≤ 200 * 2 ^ s1 := Nat.mul_le_mul_left _ h_le
    have h4 : 1 * 2 ^ k ≤ 2 ^ s1 := by
      rw [one_mul]
      exact Nat.pow_le_pow_right (by norm_num) (by omega)
    calc m2 * 2 ^ (k + 1) ≤ 2 * (100 * m1) + 1 * 2 ^ k := h2
      _ ≤ 200 * 2 ^ s1 + 2 ^ s1 := Nat.add_le_add h3 h4
      _ = 201 * 2 ^ s1 := by ring
  rw [hrepr]
  by_cases hcar : m2 = 2 ^ 53
  · rw [if_pos hcar]
    have hex : (-(s1 : Int) + k) + 1 = -(((s1 - k - 2) + 1 : Nat) : Int) := by omega
    rw [hex, pyTrunc_neg_coe]
    have hj : s1 - k - 2 + 1 = s1 - k - 1 := by omega
    rw [hj]
    have hlt101 : (2 : Nat) ^ 52 < 101 * 2 ^ (s1 - k - 1) := by
      have e3 : (2 : Nat) ^ (s1 - k - 1) * 2 ^ (k + 2) = 2 ^ (s1 + 1) := by
        rw [← pow_add]
        congr 1
        omega
      have e4 : (2 : Nat) ^ 52 * 2 ^ (k + 2) = 2 ^ 53 * 2 ^ (k + 1) := by
        rw [← pow_add, ← pow_add]
        congr 1
        omega
      have e5 : (101 : Nat) * 2 ^ (s1 - k - 1) * 2 ^ (k + 2) = 202 * 2 ^ s1 := by
        calc (101 : Nat) * 2 ^ (s1 - k - 1) * 2 ^ (k + 2)
            = 101 * (2 ^ (s1 - k - 1) * 2 ^ (k + 2)) := by ring
          _ = 101 * 2 ^ (s1 + 1) := by rw [e3]
          _ = 202 * 2 ^ s1 := by rw [pow_succ]; ring
      have hchain : (2 : Nat) ^ 52 * 2 ^ (k + 2) < 101 * 2 ^ (s1 - k - 1) * 2 ^ (k + 2) := by
        rw [e4, e5]
        have := hkey
        rw [hcar] at this
        have hpos : 0 < (2 : Nat) ^ s1 := by positivity
        omega
      exact Nat.lt_of_mul_lt_mul_right hchain
    have hdiv : (2 : Nat) ^ 52 / 2 ^ (s1 - k - 1) < 101 :=
      (Nat.div_lt_iff_lt_mul (by positivity)).mpr hlt101
    omega
  · rw [if_neg hcar]
    have hex : (-(s1 : Int) + k) = -(((s1 - k - 1) + 1 : Nat) : Int) := by omega
    rw [hex, pyTrunc_neg_coe]
    have hj : s1 - k - 1 + 1 = s1 - k := by omega
    rw [hj]
    have hlt101 : m2 < 101 * 2 ^ (s1 - k) := by
      have e3 : (2 : Nat) ^ (s1 - k) * 2 ^ (k + 1) = 2 ^ (s1 + 1) := by
        rw [← pow_add]
        congr 1
        omega
      have e5 : (101 : Nat) * 2 ^ (s1 - k) * 2 ^ (k + 1) = 202 * 2 ^ s1 := by
        calc (101 : Nat) * 2 ^ (s1 - k) * 2 ^ (k + 1)
            = 101 * (2 ^ (s1 - k) * 2 ^ (k + 1)) := by ring
          _ = 101 * 2 ^ (s1 + 1) := by rw [e3]
          _ = 202 * 2 ^ s1 := by rw [pow_succ]; ring
      have hchain : m2 * 2 ^ (k + 1) < 101 * 2 ^ (s1 - k) * 2 ^ (k + 1) := by
        rw [e5]
        have hpos : 0 < (2 : Nat) ^ s1 := by positivity
        omega
      exact Nat.lt_of_mul_lt_mul_right hchain
    have hdiv : m2 / 2 ^ (s1 - k) < 101 :=
      (Nat.div_lt_iff_lt_mul (by positivity)).mpr hlt101
    omega

/-- A zero numerator gives the float zero and a zero percentage. -/
theorem pyFloatPct_zero (t : Nat) : pyFloatPct 0 t = 0 := by
  simp [pyFloatPct, floatOfRat, pyMul100, pyTrunc]

/-- The scorer's arithmetic never exceeds 100 when there are at least as
many questions as correct answers. -/
theorem pyFloatPct_le_100 (cc t : Nat) (h : cc ≤ t) : pyFloatPct cc t ≤ 100 := by
  rcases Nat.eq_zero_or_pos cc with h0 | h1
  · subst h0
    rw [pyFloatPct_zero]
    omega
  · obtain ⟨m, s, heq, hlow, hub, hle, hs⟩ := floatOfRat_le_one cc t h1 h
    unfold pyFloatPct
    rw [heq]
    have hm : pyMul100 ⟨m, -(s : Int)⟩ = normPos (100 * m) 1 (-(s : Int)) := by
      unfold pyMul100
      rw [if_neg (show ¬ m = 0 by omega)]
    rw [hm]
    exact normPos_hundred_trunc_le m s hlow hub hle hs

/-- `find?` over an association list with distinct keys agrees with `any`. -/
theorem find?_match_any (l : List (Str × Str)) (k ans : Str)
    (h : (l.map (·.1)).Nodup) :
    (match l.find? (fun p => p.1 == k) with
     | some p => ans == p.2
     | none => false) = l.any (fun p => p.1 == k && ans == p.2) := by
  induction l with
  | nil => rfl
  | cons pr rest ih =>
    rw [List.map_cons, List.nodup_cons] at h
    obtain ⟨hnotin, hnd⟩ := h
    by_cases hp : (pr.1 == k) = true
    · rw [List.find?_cons_of_pos rest (show (fun q : Str × Str => q.1 == k) pr = true from hp)]
      have hpk : pr.1 = k := eq_of_beq hp
      have hrest : rest.any (fun q => q.1 == k && ans == q.2) = false := by
        apply List.any_eq_false.mpr
        intro q hq
        have hqk : q.1 ≠ k := by
          intro hqk
          exact hnotin (by
            rw [hpk, ← hqk]
            exact List.mem_map_of_mem (·.1) hq)
        simp [hqk]
      rw [List.any_cons, hrest]
      simp [hp]
    · rw [List.find?_cons_of_neg rest
        (show ¬ (fun q : Str × Str => q.1 == k) pr = true from hp)]
      rw [List.any_cons, ih hnd]
      have hfalse : (pr.1 == k && ans == pr.2) = false := by
        simp only [Bool.and_eq_false_iff]
        left
        simpa using hp
      rw [hfalse]
      simp

/-- The scorer's dict lookup agrees with an existential scan when the keys
are distinct. -/
theorem pyDictGet_match_any (l : List (Str × Str)) (k ans : Str)
    (h : (l.map (·.1)).Nodup) :
    (match pyDictGet l k with | some v => ans == v | none => false)
      = l.any (fun p => p.1 == k && ans == p.2) := by
  unfold pyDictGet
  have h' : (l.reverse.map (·.1)).Nodup := by
    rw [List.map_reverse]
    exact (List.nodup_reverse).mpr h
  rw [← List.any_reverse]
  rw [← find?_match_any l.reverse k ans h']
  cases hf : l.reverse.find? (fun p => p.1 == k) <;> simp [hf]

/-- The number of correctly-matched answers is bounded by the number of
dict keys when the submitted `questionId`s are distinct. -/
theorem countP_le_keys (answers : List QuizAnswerRequest) (m : List (Str × Str))
    (h : (answers.map (·.questionId)).Nodup) :
    answers.countP (fun a =>
      match pyDictGet m a.questionId with
      | some ca => a.answer == ca
      | none => false) ≤ m.length := by
  set p := fun (a : QuizAnswerRequest) =>
    match pyDictGet m a.questionId with
    | some ca => a.answer == ca
    | none => false with hp
  rw [List.countP_eq_length_filter]
  have hnd : ((answers.filter p).map (·.questionId)).Nodup :=
    List.Nodup.sublist (List.Sublist.map _ (List.filter_sublist _)) h
  have hsub : ∀ x ∈ (answers.filter p).map (·.questionId), x ∈ m.map (·.1) := by
    intro x hx
    obtain ⟨a, ha, rfl⟩ := List.mem_map.mp hx
    have hpa : p a = true := (List.mem_filter.mp ha).2
    simp only [hp] at hpa
    cases hg : pyDictGet m a.questionId with
    | none => rw [hg] at hpa; simp at hpa
    | some v =>
      unfold pyDictGet at hg
      cases hf : m.reverse.find? (fun q => q.1 == a.questionId) with
      | none => rw [hf] at hg; simp at hg
      | some q =>
        have hq1 := List.find?_some hf
        have hqm : q ∈ m.reverse := List.mem_of_find?_eq_some hf
        rw [← eq_of_beq (show (q.1 == a.questionId) = true from hq1)]
        exact List.mem_map_of_mem (·.1) (List.mem_reverse.mp hqm)
  have hsp := List.Nodup.subperm hnd hsub
  have hlen := hsp.length_le
  calc (answers.filter p).length
      = ((answers.filter p).map (·.questionId)).length := (List.length_map _ _).symm
    _ ≤ (m.map (·.1)).length := hlen
    _ = m.length := List.length_map _ _

/-- `any` over a mapped list, for a type-changing map. -/
theorem any_map_general {A B : Type} (f : A → B) (l : List A) (p : B → Bool) :
    (l.map f).any p = l.any (fun a => p (f a)) := by
  induction l with
  | nil => rfl
  | cons a t ih => simp [List.any_cons, ih]

/-- C2 (counterexample): with 29 of 50 questions answered correctly the
code returns `int((29/50)*100) = 57` — the binary64 product
`0.58 * 100` rounds below `58` — while the claimed exact round-down
`⌊29·100/50⌋` is `58`. -/
theorem C2_float_rounding_cex :
    calculate_score quiz50 ans29 = 57 ∧ 29 * 100 / 50 = 58 ∧
    calculate_score quiz50 ans29 ≠ 29 * 100 / 50 := by
  refine ⟨by decide, by norm_num, by decide⟩

/-- C2 (amended): with distinct question ids, `calculate_score` returns 0
for a quiz with no questions (whatever the answers), and otherwise
`int((c/t)*100)` computed in binary64 arithmetic, where `c` counts the
submitted answers string-equal (exact, case-sensitive, untrimmed) to the
stored correct answer of their question. -/
theorem C2_score_formula (quiz : Quiz) (answers : List QuizAnswerRequest)
    (h : (quiz.questions.map (fun q => natStr q.id)).Nodup) :
    calculate_score quiz answers =
      if quiz.questions.length = 0 then 0
      else
        pyFloatPct
          (answers.countP (fun a => quiz.questions.any (fun q =>
            natStr q.id == a.questionId && a.answer == q.correct_answer)))
          quiz.questions.length := by
  unfold calculate_score
  by_cases hnil : quiz.questions = []
  · simp [hnil]
  · have hlen0 : ¬ quiz.questions.length = 0 := by
      intro hh
      exact hnil (List.length_eq_zero.mp hh)
    have hne : quiz.questions.isEmpty = false := by
      cases hqq : quiz.questions with
      | nil => exact absurd hqq hnil
      | cons a l => rfl
    rw [if_neg hlen0]
    cases hans : answers with
    | nil =>
      rw [hne]
      simp [pyFloatPct_zero]
    | cons a0 rest =>
      have hcond : (quiz.questions.isEmpty || (a0 :: rest).isEmpty) = false := by
        rw [hne]
        rfl
      rw [hcond]
      simp only [Bool.false_eq_true, if_false]
      apply congrArg (fun cc => pyFloatPct cc quiz.questions.length)
      apply List.countP_congr
      intro a ha
      have hnd : ((quiz.questions.map (fun q => (natStr q.id, q.correct_answer))).map
          (·.1)).Nodup := by
        rw [List.map_map]
        simpa using h
      have he := pyDictGet_match_any
        (quiz.questions.map (fun q => (natStr q.id, q.correct_answer)))
        a.questionId a.answer hnd
      have he2 : ((quiz.questions.map (fun q => (natStr q.id, q.correct_answer))).any
          (fun p => p.1 == a.questionId && a.answer == p.2))
          = quiz.questions.any
            (fun q => natStr q.id == a.questionId && a.answer == q.correct_answer) := by
        rw [any_map_general]
      rw [he, he2]

/-- C2 witness: a four-question quiz with exactly three correct answers
scores 75, via the amended formula. -/
theorem C2_score_witness : calculate_score quiz4 ans3 = 75 := by
  have h := C2_score_formula quiz4 ans3 (by decide)
  rw [h]
  decide

/-- C7 (counterexample): submitting the same correct answer twice for a
one-question quiz scores `int((2/1)*100) = 200`, outside the claimed
0–100 range. -/
theorem C7_duplicate_answers_exceed_100 :
    calculate_score quiz1 dupAnswers = 200 ∧ ¬ calculate_score quiz1 dupAnswers ≤ 100 := by
  refine ⟨by decide, by decide⟩

/-- C7 (amended): when the submitted answers carry pairwise-distinct
`questionId`s the computed score is at most 100 (it is a `Nat`, hence at
least 0), and the stored submission's score is exactly the computed value
— never a value supplied by the caller. -/
theorem C7_score_bound (quiz : Quiz) (answers : List QuizAnswerRequest)
    (h : (answers.map (·.questionId)).Nodup) :
    calculate_score quiz answers ≤ 100 ∧
    ∀ st uid qid, findQuiz st uid qid = some quiz →
      (submit_quiz st uid qid answers).2
        = .ok ⟨qid, uid, answers, calculate_score quiz answers⟩ ∧
      (submit_quiz st uid qid answers).1.submissions
        = st.submissions ++ [⟨qid, uid, answers, calculate_score quiz answers⟩] := by
  constructor
  · unfold calculate_score
    by_cases hcond : (quiz.questions.isEmpty || answers.isEmpty) = true
    · rw [if_pos hcond]
      omega
    · rw [if_neg hcond]
      show pyFloatPct
        (answers.countP (fun a =>
          match pyDictGet (quiz.questions.map (fun q => (natStr q.id, q.correct_answer)))
              a.questionId with
          | some ca => a.answer == ca
          | none => false))
        quiz.questions.length ≤ 100
      apply pyFloatPct_le_100
      have hk := countP_le_keys answers
        (quiz.questions.map (fun q => (natStr q.id, q.correct_answer))) h
      simpa using hk
  · intro st uid qid hf
    unfold submit_quiz
    rw [hf]
    exact ⟨rfl, rfl⟩

/-- C7 witness: the amended theorem at a concrete quiz, store and
distinct-id answer list. -/
theorem C7_score_bound_witness :
    calculate_score quiz4 ans3 ≤ 100 ∧
    (submit_quiz st4 1 1 ans3).2 = .ok ⟨1, 1, ans3, calculate_score quiz4 ans3⟩ := by
  have h := C7_score_bound quiz4 ans3 (by decide)
  exact ⟨h.1, (h.2 st4 1 1 rfl).1⟩
